import Mathlib

/-!
Verification of the NewsBytes Telegram digest bot (src/index.js) against its
natural-language specification.  JavaScript strings are modelled as `List Char`,
timestamps (JS `Date` compared by subtraction) as `Int`, the external RSS fetch
as an oracle `Str → Except Str (List FeedItem)` where `Except.error` models a
thrown exception (network or parse failure), and the two in-memory `Map`s as
functions `UserId → Option _`.  A JS `Set` is modelled as an insertion-ordered
duplicate-free list, which is exactly its iteration semantics.
-/

namespace NewsBytes

/-- JavaScript strings, modelled as lists of characters. -/
abbrev Str := List Char

/-- Telegram chat identifiers (`ctx.chat.id`). -/
abbrev UserId := Nat

/-- One item of a parsed RSS feed (`feed.items` entries: title, link, pubDate). -/
structure FeedItem where
  title : Str
  link : Str
  pubDate : Int
deriving DecidableEq

/-- An article as built in `fetchMixedNews`: `{ topic, heading, url, date }`. -/
structure Article where
  topic : Str
  heading : Str
  url : Str
  date : Int
deriving DecidableEq

/-- The 8 fixed topics (`AVAILABLE_TOPICS` in src/index.js). -/
def AVAILABLE_TOPICS : List Str :=
  ["Technology".data, "Business".data, "Sports".data, "Health".data,
   "Science".data, "Entertainment".data, "Crypto".data, "World News".data]

/-- `Math.ceil(8 / topics.length)` for a positive length: ceiling division on
naturals (`storiesPerTopic` in `fetchMixedNews`). -/
def storiesPerTopic (n : Nat) : Nat := (8 + n - 1) / n

/-- The body of the per-topic promise in `fetchMixedNews`: on success, take the
first `quota` feed items and map them to articles; a thrown error is caught and
yields `[]`. -/
def fetchTopic (feeds : Str → Except Str (List FeedItem)) (quota : Nat)
    (topic : Str) : List Article :=
  match feeds topic with
  | Except.error _ => []
  | Except.ok items =>
      (items.take quota).map fun item =>
        { topic := topic, heading := item.title, url := item.link,
          date := item.pubDate }

/-- Insert an article into a list kept in non-increasing date order, keeping it
stable; models one step of `allArticles.sort((a, b) => b.date - a.date)`. -/
def insertDesc (a : Article) : List Article → List Article
  | [] => [a]
  | b :: rest => if b.date < a.date then a :: b :: rest else b :: insertDesc a rest

/-- Stable sort by date, newest first (`sort((a, b) => b.date - a.date)`). -/
def sortByDateDesc : List Article → List Article
  | [] => []
  | a :: rest => insertDesc a (sortByDateDesc rest)

/-- `fetchMixedNews(topics)` over a fetch oracle: per-topic quota, per-topic
fetch with failures caught as `[]`, concatenation, sort newest-first, top 8. -/
def fetchMixedNews (feeds : Str → Except Str (List FeedItem))
    (topics : List Str) : List Article :=
  let quota := storiesPerTopic topics.length
  let allArticles := (topics.map (fetchTopic feeds quota)).flatten
  (sortByDateDesc allArticles).take 8

/-- Non-increasing by publish timestamp. -/
def SortedByDateDesc (l : List Article) : Prop :=
  l.Pairwise fun a b => b.date ≤ a.date

lemma mem_insertDesc {a x : Article} {l : List Article} :
    x ∈ insertDesc a l ↔ x = a ∨ x ∈ l := by
  induction l with
  | nil => simp [insertDesc]
  | cons b rest ih =>
      by_cases h : b.date < a.date
      · simp [insertDesc, h]
      · simp only [insertDesc, if_neg h, List.mem_cons, ih]
        tauto

lemma sortedByDateDesc_insertDesc {a : Article} {l : List Article}
    (h : SortedByDateDesc l) : SortedByDateDesc (insertDesc a l) := by
  induction l with
  | nil => simp [insertDesc, SortedByDateDesc]
  | cons b rest ih =>
      rcases (List.pairwise_cons.mp h) with ⟨hb, hrest⟩
      by_cases hab : b.date < a.date
      · show SortedByDateDesc (if b.date < a.date then a :: b :: rest
          else b :: insertDesc a rest)
        rw [if_pos hab]
        refine List.pairwise_cons.mpr ⟨?_, h⟩
        intro x hx
        rcases List.mem_cons.mp hx with rfl | hx
        · exact le_of_lt hab
        · exact le_trans (hb x hx) (le_of_lt hab)
      · show SortedByDateDesc (if b.date < a.date then a :: b :: rest
          else b :: insertDesc a rest)
        rw [if_neg hab]
        refine List.pairwise_cons.mpr ⟨?_, ih hrest⟩
        intro x hx
        rcases mem_insertDesc.mp hx with rfl | hx
        · exact not_lt.mp hab
        · exact hb x hx

lemma sortedByDateDesc_sortByDateDesc (l : List Article) :
    SortedByDateDesc (sortByDateDesc l) := by
  induction l with
  | nil => exact List.Pairwise.nil
  | cons a rest ih => exact sortedByDateDesc_insertDesc ih

lemma sortedByDateDesc_take (n : Nat) {l : List Article}
    (h : SortedByDateDesc l) : SortedByDateDesc (l.take n) :=
  List.Pairwise.sublist (List.take_sublist n l) h

/-! ### Digest renderer (`renderTelegramMessage`) -/

/-- The two lines appended per article inside the `forEach` of
`renderTelegramMessage`. -/
def articleBlock (item : Article) : Str :=
  "🔹 *".data ++ item.heading ++ "*\n".data
    ++ "[Read more](".data ++ item.url ++ ")\n\n".data

/-- The `newsData.forEach` loop: concatenation of all article blocks. -/
def renderBlocks : List Article → Str
  | [] => []
  | item :: rest => articleBlock item ++ renderBlocks rest

/-- `renderTelegramMessage(newsData, topics)`: the fixed no-news string on an
empty digest, otherwise header, comma-joined topic line, one block per article,
and the fixed footer. -/
def renderTelegramMessage (newsData : List Article) (topics : List Str) : Str :=
  if newsData.isEmpty then "⚠️ No news found right now.".data
  else
    "☕ **Your Daily Digest**\n".data
      ++ "_Topics: ".data ++ List.intercalate ", ".data topics ++ "_\n\n".data
      ++ renderBlocks newsData
      ++ "📅 _You will receive this daily at 9:00 AM._".data

/-- `pat` occurs contiguously somewhere inside `s`. -/
def OccursIn (pat s : Str) : Prop :=
  ∃ pre post, s = pre ++ pat ++ post

/-- Does `s` start with `pat`? -/
def startsWith : Str → Str → Bool
  | _, [] => true
  | [], _ :: _ => false
  | c :: s, p :: ps => c = p && startsWith s ps

/-- Number of positions of `s` at which `pat` occurs (used to make the
"appears exactly once" reading of the spec precise). -/
def countOcc : Str → Str → Nat
  | [], pat => if pat.isEmpty then 1 else 0
  | c :: rest, pat =>
      (if startsWith (c :: rest) pat then 1 else 0) + countOcc rest pat

/-! ### Preference store, selection session and dispatch handlers -/

/-- The whole mutable state: `userPreferences` and `selectionSession` maps. -/
structure BotState where
  userPreferences : UserId → Option (List Str)
  selectionSession : UserId → Option (List Str)

/-- `Map.set` / `Map.delete` on a modelled map. -/
def mapSet {α : Type} (m : UserId → Option α) (k : UserId) (v : Option α) :
    UserId → Option α :=
  fun k2 => if k2 = k then v else m k2

/-- `Set.prototype.add`: append if absent (JS sets iterate in insertion order). -/
def setAdd (l : List Str) (t : Str) : List Str :=
  if t ∈ l then l else l ++ [t]

/-- `new Set(arr)`: add the elements in order (keeps first occurrences). -/
def setOfList (l : List Str) : List Str := l.foldl setAdd []

/-- The toggle handler's mutation: delete the topic if present, add it
otherwise (`selected.has` / `selected.delete` / `selected.add`). -/
def toggleTopic (l : List Str) (t : Str) : List Str :=
  if t ∈ l then l.filter (fun x => x ≠ t) else l ++ [t]

/-- `showMenu`: seed the selection session from the stored preferences (or
empty) and (re)create the session; the outgoing keyboard is not modelled. -/
def showMenu (s : BotState) (u : UserId) : BotState :=
  let existingTopics := (s.userPreferences u).getD []
  let initialSet := setOfList existingTopics
  { s with selectionSession := mapSet s.selectionSession u (some initialSet) }

/-- The `toggle_<topic>` action handler: fetch the session (or a fresh empty
set), flip the topic, store the result back. -/
def toggleAction (s : BotState) (u : UserId) (t : Str) : BotState :=
  let selected := (s.selectionSession u).getD []
  let updated := mapSet s.selectionSession u (some (toggleTopic selected t))
  { s with selectionSession := updated }

/-- Result of the `done_selection` handler. -/
inductive CommitOutcome where
  | rejected
  | committed (topics : List Str)
deriving DecidableEq

/-- The `done_selection` action handler: reject (inline warning, nothing
mutated) when the session is absent or empty; otherwise write
`Array.from(selected)` to `userPreferences` and delete the session. -/
def doneSelection (s : BotState) (u : UserId) : BotState × CommitOutcome :=
  match s.selectionSession u with
  | none => (s, CommitOutcome.rejected)
  | some selected =>
      if selected.isEmpty then (s, CommitOutcome.rejected)
      else
        ({ userPreferences := mapSet s.userPreferences u (some selected),
           selectionSession := mapSet s.selectionSession u none },
         CommitOutcome.committed selected)

/-- The three session-affecting operations a user can trigger. -/
inductive BotOp where
  | openMenu (u : UserId)
  | toggle (u : UserId) (t : Str)
  | commit (u : UserId)

/-- Apply one operation to the state (the commit outcome is dropped). -/
def applyOp (s : BotState) : BotOp → BotState
  | BotOp.openMenu u => showMenu s u
  | BotOp.toggle u t => toggleAction s u t
  | BotOp.commit u => (doneSelection s u).1

/-- Process start: both maps empty. -/
def initialState : BotState :=
  { userPreferences := fun _ => none, selectionSession := fun _ => none }

/-- Run a sequence of operations from a state. -/
def runOps (s : BotState) (ops : List BotOp) : BotState := ops.foldl applyOp s

/-- The selection set a toggle sees: the session, or empty when absent. -/
def sessionSet (s : BotState) (u : UserId) : List Str :=
  (s.selectionSession u).getD []

/-! ### Send pipeline and daily scheduler -/

/-- `sendDigestToUser(chatId)` over a delivery oracle: an `Except.error` from
`deliver` models a rejected `bot.telegram.sendMessage` promise; the function
has no try/catch, so any delivery failure propagates. -/
def sendDigestToUser (deliver : UserId → Str → Except Str Unit)
    (feeds : Str → Except Str (List FeedItem))
    (prefs : UserId → Option (List Str)) (u : UserId) : Except Str Unit :=
  match prefs u with
  | none => deliver u "⚠️ Use /update to setup your topics.".data
  | some topics =>
      if topics.isEmpty then
        deliver u "⚠️ Use /update to setup your topics.".data
      else do
        deliver u "🔍 Fetching latest headlines...".data
        let newsData := fetchMixedNews feeds topics
        deliver u (renderTelegramMessage newsData topics)

/-- The cron callback's `for ... of userPreferences.entries()` loop with
`await sendDigestToUser(chatId)` inside and no try/catch: a rejected send
rejects the whole job. -/
def dailyJob (send : UserId → Except Str Unit) : List UserId → Except Str Unit
  | [] => Except.ok ()
  | u :: rest => do
      send u
      dailyJob send rest

/-- Trace of the same loop: the users for which `sendDigestToUser` actually
gets invoked before the job stops (all of them only if no send fails). -/
def dailyJobInvoked (send : UserId → Except Str Unit) :
    List UserId → List UserId
  | [] => []
  | u :: rest =>
      match send u with
      | Except.ok _ => u :: dailyJobInvoked send rest
      | Except.error _ => [u]

/-- Did the external fetch for this topic succeed (no exception thrown)? -/
def fetchOk (feeds : Str → Except Str (List FeedItem)) (t : Str) : Bool :=
  match feeds t with
  | Except.ok _ => true
  | Except.error _ => false

/-- Did the send pipeline for this user run without a rejected promise? -/
def sendOk (send : UserId → Except Str Unit) (u : UserId) : Bool :=
  match send u with
  | Except.ok _ => true
  | Except.error _ => false

/-! ### Concrete data used by the witnesses and counterexamples -/

/-- A concrete fetch oracle: "Technology" succeeds with two items (older one
first, so the sort has work to do), every other topic's fetch throws. -/
def demoFeeds : Str → Except Str (List FeedItem) :=
  fun t =>
    if t = "Technology".data then
      Except.ok [{ title := "A".data, link := "ua".data, pubDate := 5 },
                 { title := "B".data, link := "ub".data, pubDate := 9 }]
    else Except.error "network error".data

end NewsBytes

namespace NewsBytes

/-! ### Claim theorems -/

lemma length_fetchMixedNews_le (feeds : Str → Except Str (List FeedItem))
    (topics : List Str) : (fetchMixedNews feeds topics).length ≤ 8 := by
  simpa [fetchMixedNews] using
    List.length_take_le 8
      (sortByDateDesc ((topics.map
        (fetchTopic feeds (storiesPerTopic topics.length))).flatten))

/-- Claim C1: for every fetch oracle and every non-empty topic sequence,
`fetchMixedNews` returns at most 8 articles, in non-increasing order of
publish timestamp. -/
theorem fetchMixedNews_capped_and_sorted
    (feeds : Str → Except Str (List FeedItem)) (topics : List Str)
    (h : topics ≠ []) :
    (fetchMixedNews feeds topics).length ≤ 8 ∧
      SortedByDateDesc (fetchMixedNews feeds topics) := by
  refine ⟨length_fetchMixedNews_le feeds topics, ?_⟩
  exact sortedByDateDesc_take 8 (sortedByDateDesc_sortByDateDesc _)

/-- Witness for C1 at the concrete oracle `demoFeeds` and a concrete pair of
topics. -/
theorem fetchMixedNews_capped_and_sorted_witness :
    (["Technology".data, "Crypto".data] : List Str) ≠ [] ∧
      ((fetchMixedNews demoFeeds ["Technology".data, "Crypto".data]).length ≤ 8 ∧
        SortedByDateDesc
          (fetchMixedNews demoFeeds ["Technology".data, "Crypto".data])) :=
  ⟨by decide,
   fetchMixedNews_capped_and_sorted demoFeeds
     ["Technology".data, "Crypto".data] (by decide)⟩

lemma fetchTopic_eq_nil_of_fail {feeds : Str → Except Str (List FeedItem)}
    {t : Str} (q : Nat) (h : fetchOk feeds t = false) :
    fetchTopic feeds q t = [] := by
  unfold fetchTopic
  unfold fetchOk at h
  cases hf : feeds t with
  | error e => rfl
  | ok items => rw [hf] at h; exact absurd h (by simp)

lemma flatten_map_fetchTopic_filter
    (feeds : Str → Except Str (List FeedItem)) (q : Nat) (topics : List Str) :
    ((topics.filter (fun t => fetchOk feeds t)).map (fetchTopic feeds q)).flatten
      = (topics.map (fetchTopic feeds q)).flatten := by
  induction topics with
  | nil => rfl
  | cons t rest ih =>
      by_cases h : fetchOk feeds t
      · simp only [List.filter_cons, h, if_pos, List.map_cons, List.flatten_cons, ih]
      · have hb : fetchOk feeds t = false := by simpa using h
        simp only [List.filter_cons, hb, Bool.false_eq_true, if_false,
          List.map_cons, List.flatten_cons,
          fetchTopic_eq_nil_of_fail q hb, List.nil_append, ih]

/-- Claim C2: whenever some topics' fetches fail and others succeed,
`fetchMixedNews` treats each failing topic as contributing zero articles and
returns exactly the merged (sorted, capped) articles of the succeeding
topics; no failure propagates (the function totally returns a list). -/
theorem fetchMixedNews_failures_isolated
    (feeds : Str → Except Str (List FeedItem)) (topics : List Str)
    (hfail : ∃ t ∈ topics, fetchOk feeds t = false)
    (hok : ∃ t ∈ topics, fetchOk feeds t = true) :
    fetchMixedNews feeds topics =
      (sortByDateDesc
        (((topics.filter (fun t => fetchOk feeds t)).map
          (fetchTopic feeds (storiesPerTopic topics.length))).flatten)).take 8 := by
  unfold fetchMixedNews
  rw [flatten_map_fetchTopic_filter]

/-- Witness for C2: `demoFeeds` fails on "Crypto" and succeeds on
"Technology". -/
theorem fetchMixedNews_failures_isolated_witness :
    (∃ t ∈ (["Technology".data, "Crypto".data] : List Str),
        fetchOk demoFeeds t = false) ∧
    (∃ t ∈ (["Technology".data, "Crypto".data] : List Str),
        fetchOk demoFeeds t = true) ∧
    fetchMixedNews demoFeeds ["Technology".data, "Crypto".data] =
      (sortByDateDesc
        ((((["Technology".data, "Crypto".data] : List Str).filter
            (fun t => fetchOk demoFeeds t)).map
          (fetchTopic demoFeeds (storiesPerTopic 2))).flatten)).take 8 :=
  ⟨by decide, by decide,
   fetchMixedNews_failures_isolated demoFeeds
     ["Technology".data, "Crypto".data] (by decide) (by decide)⟩

lemma storiesPerTopic_eq_ceilDiv (n : Nat) : storiesPerTopic n = 8 ⌈/⌉ n := rfl

lemma storiesPerTopic_eq_ceil {n : Nat} (hn : 0 < n) :
    storiesPerTopic n = ⌈(8 : ℚ) / (n : ℚ)⌉₊ := by
  have hq : (0 : ℚ) < (n : ℚ) := by exact_mod_cast hn
  apply le_antisymm
  · rw [storiesPerTopic_eq_ceilDiv]
    refine (ceilDiv_le_iff_le_smul hn).mpr ?_
    rw [smul_eq_mul]
    have h8 : (8 : ℚ) / (n : ℚ) ≤ (⌈(8 : ℚ) / (n : ℚ)⌉₊ : ℚ) := Nat.le_ceil _
    rw [div_le_iff hq] at h8
    have : (8 : ℚ) ≤ ((n : ℕ) : ℚ) * ((⌈(8 : ℚ) / (n : ℚ)⌉₊ : ℕ) : ℚ) := by
      linarith [h8]
    exact_mod_cast this
  · refine Nat.ceil_le.mpr ?_
    rw [div_le_iff hq]
    have h := le_smul_ceilDiv (β := ℕ) hn (b := 8)
    rw [smul_eq_mul, ← storiesPerTopic_eq_ceilDiv] at h
    have : (8 : ℚ) ≤ ((storiesPerTopic n : ℕ) : ℚ) * ((n : ℕ) : ℚ) := by
      exact_mod_cast (mul_comm n (storiesPerTopic n) ▸ h)
    exact this

/-- Claim C3: the per-topic quota equals `ceil(8 / |T|)`, each topic
contributes at most `quota` articles to the merge, and for a single topic the
quota is 8 and the digest is that topic's articles (capped at 8) sorted by
date. -/
theorem storiesPerTopic_quota_spec
    (feeds : Str → Except Str (List FeedItem)) (topics : List Str)
    (h : topics ≠ []) :
    storiesPerTopic topics.length = ⌈(8 : ℚ) / (topics.length : ℚ)⌉₊ ∧
    (∀ t ∈ topics,
      (fetchTopic feeds (storiesPerTopic topics.length) t).length
        ≤ storiesPerTopic topics.length) ∧
    (∀ t, topics = [t] →
      storiesPerTopic topics.length = 8 ∧
      fetchMixedNews feeds topics =
        (sortByDateDesc (fetchTopic feeds 8 t)).take 8) := by
  have hn : 0 < topics.length := List.length_pos.mpr h
  refine ⟨storiesPerTopic_eq_ceil hn, ?_, ?_⟩
  · intro t _
    unfold fetchTopic
    cases feeds t with
    | error e => simp
    | ok items =>
        simpa using List.length_take_le (storiesPerTopic topics.length) items
  · intro t ht
    subst ht
    refine ⟨by simp [storiesPerTopic], ?_⟩
    simp [fetchMixedNews, storiesPerTopic]

/-- Witness for C3 at `demoFeeds` and the single topic "Technology". -/
theorem storiesPerTopic_quota_spec_witness :
    (["Technology".data] : List Str) ≠ [] ∧
    (storiesPerTopic (["Technology".data] : List Str).length
        = ⌈(8 : ℚ) / ((["Technology".data] : List Str).length : ℚ)⌉₊ ∧
    (∀ t ∈ (["Technology".data] : List Str),
      (fetchTopic demoFeeds
          (storiesPerTopic (["Technology".data] : List Str).length) t).length
        ≤ storiesPerTopic (["Technology".data] : List Str).length) ∧
    (∀ t, (["Technology".data] : List Str) = [t] →
      storiesPerTopic (["Technology".data] : List Str).length = 8 ∧
      fetchMixedNews demoFeeds ["Technology".data] =
        (sortByDateDesc (fetchTopic demoFeeds 8 t)).take 8)) :=
  ⟨by decide,
   storiesPerTopic_quota_spec demoFeeds ["Technology".data] (by decide)⟩

/-- Claim C4: committing with an absent or empty selection session is
rejected and leaves the whole state (both maps, hence the Preference Store
entry and the session) unchanged. -/
theorem doneSelection_rejects_empty (s : BotState) (u : UserId)
    (h : s.selectionSession u = none ∨ s.selectionSession u = some []) :
    doneSelection s u = (s, CommitOutcome.rejected) := by
  rcases h with h | h <;> simp [doneSelection, h]

/-- Witness for C4 at the initial state (no session at all for user 0). -/
theorem doneSelection_rejects_empty_witness :
    (initialState.selectionSession 0 = none ∨
      initialState.selectionSession 0 = some []) ∧
    doneSelection initialState 0 = (initialState, CommitOutcome.rejected) :=
  ⟨Or.inl rfl, doneSelection_rejects_empty initialState 0 (Or.inl rfl)⟩

lemma foldl_setAdd_eq_append (l : List Str) :
    ∀ acc : List Str, l.Nodup → (∀ x ∈ l, x ∉ acc) →
      l.foldl setAdd acc = acc ++ l := by
  induction l with
  | nil => intro acc _ _; simp
  | cons a rest ih =>
      intro acc hnd hdisj
      have ha : a ∉ acc := hdisj a (List.mem_cons_self a rest)
      rw [List.foldl_cons]
      have hset : setAdd acc a = acc ++ [a] := by simp [setAdd, ha]
      rw [hset, ih (acc ++ [a]) (List.Nodup.of_cons hnd) ?_]
      · simp
      · intro x hx
        simp only [List.mem_append, List.mem_singleton]
        rintro (hxa | rfl)
        · exact hdisj x (List.mem_cons_of_mem a hx) hxa
        · exact (List.nodup_cons.mp hnd).1 hx

lemma setOfList_eq_self {l : List Str} (h : l.Nodup) : setOfList l = l := by
  simpa using foldl_setAdd_eq_append l [] h (by simp)

/-- Claim C5: committing a non-empty session writes exactly its topics to the
Preference Store, removes the session, and a subsequent `showMenu` reseeds
the new session from the committed preferences (the session list is
duplicate-free because it models a JS `Set`). -/
theorem doneSelection_commits_and_reseeds (s : BotState) (u : UserId)
    (l : List Str) (hses : s.selectionSession u = some l) (hne : l ≠ [])
    (hnd : l.Nodup) :
    (doneSelection s u).2 = CommitOutcome.committed l ∧
    ((doneSelection s u).1).userPreferences u = some l ∧
    ((doneSelection s u).1).selectionSession u = none ∧
    (showMenu (doneSelection s u).1 u).selectionSession u = some l := by
  have hemp : l.isEmpty = false := by
    cases l with
    | nil => exact absurd rfl hne
    | cons a rest => rfl
  have hdone : doneSelection s u =
      ({ userPreferences := mapSet s.userPreferences u (some l),
         selectionSession := mapSet s.selectionSession u none },
       CommitOutcome.committed l) := by
    simp [doneSelection, hses, hemp]
  rw [hdone]
  refine ⟨rfl, by simp [mapSet], by simp [mapSet], ?_⟩
  simp [showMenu, mapSet, setOfList_eq_self hnd]

/-- A concrete state whose user-0 session is the set Technology, Sports. -/
def demoSessionState : BotState :=
  { userPreferences := fun _ => none,
    selectionSession := fun k =>
      if k = 0 then some ["Technology".data, "Sports".data] else none }

/-- Witness for C5 at `demoSessionState`. -/
theorem doneSelection_commits_and_reseeds_witness :
    demoSessionState.selectionSession 0
        = some ["Technology".data, "Sports".data] ∧
    (["Technology".data, "Sports".data] : List Str) ≠ [] ∧
    (["Technology".data, "Sports".data] : List Str).Nodup ∧
    ((doneSelection demoSessionState 0).2
        = CommitOutcome.committed ["Technology".data, "Sports".data] ∧
    ((doneSelection demoSessionState 0).1).userPreferences 0
        = some ["Technology".data, "Sports".data] ∧
    ((doneSelection demoSessionState 0).1).selectionSession 0 = none ∧
    (showMenu (doneSelection demoSessionState 0).1 0).selectionSession 0
        = some ["Technology".data, "Sports".data]) :=
  ⟨rfl, by decide, by decide,
   doneSelection_commits_and_reseeds demoSessionState 0
     ["Technology".data, "Sports".data] rfl (by decide) (by decide)⟩

lemma mem_toggleTopic_toggleTopic (l : List Str) (t x : Str) :
    x ∈ toggleTopic (toggleTopic l t) t ↔ x ∈ l := by
  by_cases h : t ∈ l
  · have hinner : toggleTopic l t = l.filter (fun y => y ≠ t) := by
      rw [toggleTopic, if_pos h]
    rw [hinner]
    have ht : t ∉ l.filter (fun y => y ≠ t) := by simp
    rw [toggleTopic, if_neg ht]
    simp only [List.mem_append, List.mem_filter, List.mem_singleton, decide_eq_true_eq]
    constructor
    · rintro (⟨hx, _⟩ | rfl)
      · exact hx
      · exact h
    · intro hx
      by_cases hxt : x = t
      · exact Or.inr hxt
      · exact Or.inl ⟨hx, hxt⟩
  · have hinner : toggleTopic l t = l ++ [t] := by
      rw [toggleTopic, if_neg h]
    rw [hinner]
    have ht : t ∈ l ++ [t] := by simp
    rw [toggleTopic, if_pos ht]
    simp only [List.mem_filter, List.mem_append, List.mem_singleton, decide_eq_true_eq]
    constructor
    · rintro ⟨hx | rfl, hxt⟩
      · exact hx
      · exact absurd rfl hxt
    · intro hx
      exact ⟨Or.inl hx, fun hxt => h (hxt ▸ hx)⟩

/-- Claim C6: toggling the same topic twice for the same user yields a
selection set with exactly the members it had before the two calls (an absent
session counting, as in the handler, as the empty set). -/
theorem toggleAction_self_inverse (s : BotState) (u : UserId) (t x : Str) :
    x ∈ sessionSet (toggleAction (toggleAction s u t) u t) u ↔
      x ∈ sessionSet s u := by
  have h1 : sessionSet (toggleAction s u t) u = toggleTopic (sessionSet s u) t := by
    simp [toggleAction, sessionSet, mapSet]
  have h2 : sessionSet (toggleAction (toggleAction s u t) u t) u
      = toggleTopic (sessionSet (toggleAction s u t) u) t := by
    simp [toggleAction, sessionSet, mapSet]
  rw [h2, h1, mem_toggleTopic_toggleTopic]

/-- Every Preference Record in the store is a non-empty topic list. -/
def PrefsNonEmpty (s : BotState) : Prop :=
  ∀ u l, s.userPreferences u = some l → l ≠ []

lemma prefsNonEmpty_applyOp {s : BotState} (h : PrefsNonEmpty s) (op : BotOp) :
    PrefsNonEmpty (applyOp s op) := by
  cases op with
  | openMenu u => exact h
  | toggle u t => exact h
  | commit u =>
      show PrefsNonEmpty (doneSelection s u).1
      unfold doneSelection
      cases hses : s.selectionSession u with
      | none => exact h
      | some sel =>
          by_cases hemp : sel.isEmpty
          · simp only [hemp, if_pos]
            exact h
          · have hempf : sel.isEmpty = false := by simpa using hemp
            simp only [hempf, Bool.false_eq_true, if_false]
            intro v l hv
            simp only [mapSet] at hv
            by_cases hvu : v = u
            · rw [if_pos hvu] at hv
              cases hv
              exact List.isEmpty_eq_false.mp hempf
            · rw [if_neg hvu] at hv
              exact h v l hv

lemma prefsNonEmpty_runOps (ops : List BotOp) :
    ∀ s : BotState, PrefsNonEmpty s → PrefsNonEmpty (runOps s ops) := by
  induction ops with
  | nil => intro s h; exact h
  | cons op rest ih =>
      intro s h
      exact ih (applyOp s op) (prefsNonEmpty_applyOp h op)

/-- Claim C7: in every state reachable from process start by any sequence of
open, toggle and commit operations, every stored Preference Record has at
least one topic. -/
theorem reachable_prefs_nonEmpty (ops : List BotOp) (u : UserId) (l : List Str)
    (h : (runOps initialState ops).userPreferences u = some l) : l ≠ [] := by
  refine prefsNonEmpty_runOps ops initialState ?_ u l h
  intro v l' hv
  exact absurd hv (by simp [initialState])

/-- A concrete run: open the menu, toggle "Technology", commit. -/
def demoOps : List BotOp :=
  [BotOp.openMenu 0, BotOp.toggle 0 "Technology".data, BotOp.commit 0]

/-- Witness for C7 on the concrete run `demoOps`. -/
theorem reachable_prefs_nonEmpty_witness :
    (runOps initialState demoOps).userPreferences 0
        = some ["Technology".data] ∧
    (["Technology".data] : List Str) ≠ [] :=
  ⟨by decide, reachable_prefs_nonEmpty demoOps 0 ["Technology".data] (by decide)⟩

/-- A delivery oracle that rejects every message to user 0 (for example a
blocked bot) and delivers to everyone else. -/
def demoDeliverFail0 : UserId → Str → Except Str Unit :=
  fun u _ => if u = 0 then Except.error "403: blocked by user".data
             else Except.ok ()

/-- A delivery oracle that always succeeds. -/
def demoDeliverOk : UserId → Str → Except Str Unit :=
  fun _ _ => Except.ok ()

/-- A preference store holding users 0 and 1, both subscribed to "Crypto". -/
def demoPrefs : UserId → Option (List Str) :=
  fun u => if u ≤ 1 then some ["Crypto".data] else none

/-- The daily send pipeline with delivery to user 0 failing. -/
def demoSend : UserId → Except Str Unit :=
  sendDigestToUser demoDeliverFail0 demoFeeds demoPrefs

/-- The daily send pipeline with all deliveries succeeding. -/
def demoSendAllOk : UserId → Except Str Unit :=
  sendDigestToUser demoDeliverOk demoFeeds demoPrefs

/-- Counterexample to claim C8 as stated: with users 0 and 1 both in the
store and delivery to user 0 failing, the daily loop — which has no
per-user try/catch — never invokes the send pipeline for user 1, so one
user's failure does stop iteration over the remaining users. -/
theorem dailyJob_stops_on_failure :
    (1 : UserId) ∈ ([0, 1] : List UserId) ∧
    sendOk demoSend 0 = false ∧
    (1 : UserId) ∉ dailyJobInvoked demoSend [0, 1] := by decide

/-- Claim C8 amended: the scheduler invokes the send pipeline sequentially in
store order; the users actually reached form a prefix of the store's user
list, and only when every send succeeds is the pipeline invoked for every
user — a failure rejects the whole job and skips the remaining users. -/
theorem dailyJob_invokes_prefix_until_failure
    (send : UserId → Except Str Unit) (users : List UserId) :
    (∃ k, dailyJobInvoked send users = users.take k) ∧
    ((∀ u ∈ users, sendOk send u = true) →
      dailyJobInvoked send users = users) := by
  constructor
  · induction users with
    | nil => exact ⟨0, rfl⟩
    | cons u rest ih =>
        cases hsu : send u with
        | ok v =>
            obtain ⟨k, hk⟩ := ih
            exact ⟨k + 1, by simp [dailyJobInvoked, hsu, hk]⟩
        | error e =>
            exact ⟨1, by simp [dailyJobInvoked, hsu]⟩
  · induction users with
    | nil => intro _; rfl
    | cons u rest ih =>
        intro hall
        have hu : sendOk send u = true := hall u (List.mem_cons_self u rest)
        cases hsu : send u with
        | ok v =>
            have hrest := ih fun v hv => hall v (List.mem_cons_of_mem u hv)
            simp [dailyJobInvoked, hsu, hrest]
        | error e =>
            rw [sendOk, hsu] at hu
            exact absurd hu (by simp)

/-- Witness for the amended C8: with every delivery succeeding, both stored
users are invoked. -/
theorem dailyJob_invokes_prefix_until_failure_witness :
    (∀ u ∈ ([0, 1] : List UserId), sendOk demoSendAllOk u = true) ∧
    dailyJobInvoked demoSendAllOk [0, 1] = [0, 1] :=
  ⟨by decide,
   (dailyJob_invokes_prefix_until_failure demoSendAllOk [0, 1]).2 (by decide)⟩

/-- An article whose heading and url use letters that occur nowhere in the
renderer's fixed template text. -/
def dupArticle : Article :=
  { topic := "Technology".data, heading := "zzz".data, url := "qqq".data,
    date := 5 }

set_option maxRecDepth 8192 in
/-- Counterexample to claim C9 as stated: when the digest contains the same
article twice, its heading occurs twice in the rendered message, not exactly
once. -/
theorem render_duplicate_heading_not_once :
    dupArticle ∈ [dupArticle, dupArticle] ∧
    countOcc (renderTelegramMessage [dupArticle, dupArticle]
        ["Technology".data]) dupArticle.heading ≠ 1 := by decide

lemma occursIn_trans {p q s : Str} (h1 : OccursIn p q) (h2 : OccursIn q s) :
    OccursIn p s := by
  obtain ⟨d, e, hq⟩ := h1
  obtain ⟨b, c, hs⟩ := h2
  exact ⟨b ++ d, e ++ c, by rw [hs, hq]; simp [List.append_assoc]⟩

lemma occursIn_articleBlock_renderBlocks {a : Article} {D : List Article}
    (h : a ∈ D) : OccursIn (articleBlock a) (renderBlocks D) := by
  induction D with
  | nil => cases h
  | cons b rest ih =>
      rcases List.mem_cons.mp h with rfl | h
      · exact ⟨[], renderBlocks rest, by simp [renderBlocks]⟩
      · obtain ⟨pre, post, hp⟩ := ih h
        exact ⟨articleBlock b ++ pre, post,
          by simp [renderBlocks, hp, List.append_assoc]⟩

lemma occursIn_heading_articleBlock (a : Article) :
    OccursIn a.heading (articleBlock a) :=
  ⟨"🔹 *".data,
   "*\n".data ++ ("[Read more](".data ++ (a.url ++ ")\n\n".data)),
   by simp [articleBlock, List.append_assoc]⟩

lemma occursIn_url_articleBlock (a : Article) :
    OccursIn a.url (articleBlock a) :=
  ⟨"🔹 *".data ++ (a.heading ++ ("*\n".data ++ "[Read more](".data)),
   ")\n\n".data,
   by simp [articleBlock, List.append_assoc]⟩

/-- Claim C9 amended: for a non-empty digest the rendered message contains
every article's heading and URL (at least once; a heading repeated across
articles appears once per article), and the header lists all selected topics
comma-joined in selection order. -/
theorem render_contains_headings_urls_topics (newsData : List Article)
    (topics : List Str) (h : newsData ≠ []) :
    (∀ a ∈ newsData,
      OccursIn a.heading (renderTelegramMessage newsData topics) ∧
      OccursIn a.url (renderTelegramMessage newsData topics)) ∧
    OccursIn (List.intercalate ", ".data topics)
      (renderTelegramMessage newsData topics) := by
  have hemp : newsData.isEmpty = false := by
    cases newsData with
    | nil => exact absurd rfl h
    | cons a rest => rfl
  have hmsg : renderTelegramMessage newsData topics =
      "☕ **Your Daily Digest**\n".data
        ++ ("_Topics: ".data
        ++ (List.intercalate ", ".data topics
        ++ ("_\n\n".data
        ++ (renderBlocks newsData
        ++ "📅 _You will receive this daily at 9:00 AM._".data)))) := by
    rw [renderTelegramMessage, hemp]
    simp [List.append_assoc]
  have hblocks : OccursIn (renderBlocks newsData)
      (renderTelegramMessage newsData topics) := by
    refine ⟨"☕ **Your Daily Digest**\n".data
      ++ ("_Topics: ".data
      ++ (List.intercalate ", ".data topics ++ "_\n\n".data)),
      "📅 _You will receive this daily at 9:00 AM._".data, ?_⟩
    rw [hmsg]
    simp [List.append_assoc]
  constructor
  · intro a ha
    have hblk := occursIn_articleBlock_renderBlocks ha
    exact ⟨occursIn_trans (occursIn_trans (occursIn_heading_articleBlock a)
            hblk) hblocks,
          occursIn_trans (occursIn_trans (occursIn_url_articleBlock a)
            hblk) hblocks⟩
  · refine ⟨"☕ **Your Daily Digest**\n".data ++ "_Topics: ".data,
      "_\n\n".data
        ++ (renderBlocks newsData
        ++ "📅 _You will receive this daily at 9:00 AM._".data), ?_⟩
    rw [hmsg]
    simp [List.append_assoc]

/-- Witness for the amended C9 on a concrete one-article digest. -/
theorem render_contains_headings_urls_topics_witness :
    ([dupArticle] : List Article) ≠ [] ∧
    ((∀ a ∈ ([dupArticle] : List Article),
      OccursIn a.heading (renderTelegramMessage [dupArticle]
        ["Technology".data]) ∧
      OccursIn a.url (renderTelegramMessage [dupArticle]
        ["Technology".data])) ∧
    OccursIn (List.intercalate ", ".data ["Technology".data])
      (renderTelegramMessage [dupArticle] ["Technology".data])) :=
  ⟨by decide,
   render_contains_headings_urls_topics [dupArticle] ["Technology".data]
     (by decide)⟩

/-- A run that opens the menu, toggles the out-of-list topic "Bogus", then
commits. -/
def demoBogusOps : List BotOp :=
  [BotOp.openMenu 0, BotOp.toggle 0 "Bogus".data, BotOp.commit 0]

/-- Claim C10: the toggle handler accepts a topic string outside the 8 fixed
topics without validation, and a subsequent commit stores that string in the
user's Preference Record. -/
theorem toggle_accepts_unvalidated_topic :
    "Bogus".data ∉ AVAILABLE_TOPICS ∧
    (runOps initialState demoBogusOps).userPreferences 0
        = some ["Bogus".data] := by decide

end NewsBytes
